import Mathlib

/-!
Verification development for the ecl3 library (Eclipse summary-file reader).

The development shallowly embeds the record-framing / keyword-decoding core
(`lib/include/ecl3/io.hpp`), the keyword header parser (`ecl3_array_header`),
the summary keyword classifier (`lib/src/summary.cpp`,
`ecl3_params_identifies`), and the python extension module's `columns` and
`readall` functions.

Modelling conventions:
 - on-disk bytes are `Nat` values (each < 256 in any real input); streams are
   `List Nat` read front-to-first;
 - C `int32_t` values are `Int` with explicit wrap-around at 2^32 when decoding
   from bytes (`toInt32`);
 - C++ iostream failures are modelled by `Except`: in the pure model the only
   read failure is exhaustion of the byte list, which corresponds to the
   eofbit/failbit path of the source;
 - the host is modelled as little-endian, so decoding a big-endian numeric
   element reverses its bytes.
-/

set_option maxHeartbeats 1000000

/-- Big-endian 32-bit read of the first four bytes of a list (missing bytes
read as 0, standing for the indeterminate bytes a C read past the end would
produce). -/
def be32 (b : List Nat) : Nat :=
  b.getD 0 0 * 16777216 + b.getD 1 0 * 65536 + b.getD 2 0 * 256 + b.getD 3 0

/-- Big-endian 32-bit encoding of a natural number (mod 2^32). -/
def enc32 (n : Nat) : List Nat :=
  [n / 16777216 % 256, n / 65536 % 256, n / 256 % 256, n % 256]

/-- Reinterpret a natural number as a signed 32-bit integer (two's complement),
as assigning a `uint32_t` to a C `int` does on the target platforms. -/
def toInt32 (n : Nat) : Int :=
  let m := n % 4294967296
  if m < 2147483648 then (m : Int) else (m : Int) - 4294967296

/-- The `int32` value `ecl3_get_native(..., ECL3_INTE, 1)` stores for a 4-byte
big-endian source. -/
def host_i32 (b : List Nat) : Int := toInt32 (be32 b)

/-- ASCII byte list of a string constant (used for on-disk tags and names). -/
def bytesOfAscii (s : String) : List Nat := s.data.map Char.toNat

/-! ## Error codes (`ecl3/common.h`, modelled: the header is not in the tree;
only the distinctness of the codes matters). -/

def ECL3_OK : Int := 0
def ECL3_INVALID_ARGS : Int := 1
def ECL3_UNSUPPORTED : Int := 2

/-! ## Type tags (`ecl3/keyword.h` enum `ecl3_typeids`)

`ECL3_MAKE_KWENUM` packs the four ASCII bytes of the tag into an `int`;
`kwenum` mirrors it. -/

/-- ECL3_MAKE_KWENUM: pack four ASCII characters big-endian into an
`int`. ASCII values are < 128 so the result is positive. -/
def kwenum (s : String) : Int := (be32 (bytesOfAscii s) : Int)

def ECL3_INTE : Int := kwenum "INTE"
def ECL3_REAL : Int := kwenum "REAL"
def ECL3_DOUB : Int := kwenum "DOUB"
def ECL3_CHAR : Int := kwenum "CHAR"
def ECL3_MESS : Int := kwenum "MESS"
def ECL3_LOGI : Int := kwenum "LOGI"
def ECL3_X231 : Int := kwenum "X231"

/-- The `C001` .. `C099` codes: `c0nn_code n` for `n` in `1..99` is the packed
value of the tag `C0` followed by the two decimal digits of `n`. -/
def c0nn_code (n : Nat) : Int :=
  (67 * 16777216 + 48 * 65536 + (48 + n / 10) * 256 + (48 + n % 10) : Int)

def c0nn_codes : List Int := (List.range 99).map (fun i => c0nn_code (i + 1))

/-- All values of `enum ecl3_typeids` (the accepted set of the `switch` in
`ecl3_keyword_type`, src/unnamed/part_001). -/
def ecl3_typeid_codes : List Int :=
  [ECL3_INTE, ECL3_REAL, ECL3_DOUB, ECL3_CHAR, ECL3_MESS, ECL3_LOGI, ECL3_X231]
    ++ c0nn_codes

/-- `ecl3_typeid` / `ecl3_keyword_type` (src/unnamed/part_001): load the 4-byte
tag as a big-endian `int32` and accept it iff it is one of the enumerated
codes. `some code` stands for `ECL3_OK` with `*type = code`; `none` stands for
`ECL3_INVALID_ARGS`. -/
def ecl3_typeid (tag : List Nat) : Option Int :=
  let kw := toInt32 (be32 tag)
  if kw ∈ ecl3_typeid_codes then some kw else none

/-- Modelled from the spec: `ecl3_type_size` (declared in `ecl3/keyword.h`;
the implementation file is not in the tree). Element sizes per spec §4.1 and
the keyword.h documentation: 4 for `INTE`/`REAL`/`LOGI`, 8 for `DOUB`/`CHAR`,
0 for `MESS`, `NN` for `C0NN`; the unsupported `X231` (and unknown codes) are
given size 0, a value the callers in the tree never consume. -/
def ecl3_type_size (ty : Int) : Nat :=
  if ty = ECL3_INTE ∨ ty = ECL3_REAL ∨ ty = ECL3_LOGI then 4
  else if ty = ECL3_DOUB ∨ ty = ECL3_CHAR then 8
  else if ty = ECL3_MESS then 0
  else if ty ∈ c0nn_codes then ((ty % 65536) / 256 - 48).toNat * 10 + (ty % 256 - 48).toNat
  else 0

/-- Modelled from the spec: `ecl3_block_size` (declared in `ecl3/keyword.h`):
105 (`ECL3_BLOCK_SIZE_STRING`) for the string-like tags `CHAR` and `C0NN`,
1000 (`ECL3_BLOCK_SIZE_NUMERIC`) for everything else. -/
def ecl3_block_size (ty : Int) : Nat :=
  if ty = ECL3_CHAR ∨ ty ∈ c0nn_codes then 105 else 1000

/-- Modelled from the spec: the error code of `ecl3_get_native` /
`ecl3_array_body` for a given type: `ECL3_UNSUPPORTED` for `X231`,
`ECL3_INVALID_ARGS` for unknown codes, `ECL3_OK` otherwise (spec §4.1). -/
def ecl3_get_native_err (ty : Int) : Int :=
  if ty = ECL3_X231 then ECL3_UNSUPPORTED
  else if ty ∈ ecl3_typeid_codes then ECL3_OK
  else ECL3_INVALID_ARGS

/-- Modelled from the spec: the byte output of `ecl3_get_native ty n src`:
`n` elements of `element_size ty` bytes each; numeric elements are byte-swapped
from big-endian to the (little-endian) host, string elements are copied
verbatim, `MESS` elements are empty. Bytes past the end of `src` read as 0. -/
def ecl3_get_native (ty : Int) (n : Nat) (src : List Nat) : List Nat :=
  (List.range n).flatMap (fun j =>
    if ty = ECL3_INTE ∨ ty = ECL3_REAL ∨ ty = ECL3_DOUB ∨ ty = ECL3_LOGI then
      ((List.range (ecl3_type_size ty)).map
        (fun k => src.getD (j * ecl3_type_size ty + k) 0)).reverse
    else
      (List.range (ecl3_type_size ty)).map
        (fun k => src.getD (j * ecl3_type_size ty + k) 0))

/-! ## Keyword header parser (`ecl3_array_header`, src/unnamed/part_001)

The C function copies bytes [0..8) verbatim into `kw`, decodes bytes [8..12)
as a big-endian 32-bit integer into `count` and copies bytes [12..16) verbatim
into `type`, returning `ECL3_OK` unconditionally. Pointer reads are modelled
with `getD` (reads past the end of the list give 0, standing for whatever the
C read would find). The result is `(err, keyword, count, type)`. -/

def ecl3_array_header (src : List Nat) : Int × List Nat × Int × List Nat :=
  ((ECL3_OK : Int),
   (List.range 8).map (fun i => src.getD i 0),
   host_i32 ((List.range 4).map (fun i => src.getD (8 + i) 0)),
   (List.range 4).map (fun i => src.getD (12 + i) 0))

/-! ## The stream reader (`lib/include/ecl3/io.hpp`) -/

/-- `raw_array` (io.hpp). Defaults model the default-constructed member
`last` of `stream_reader` (`count = 0`; the `keyword`/`type` arrays are
value-initialized only in the sense that C++ leaves them indeterminate — the
zero default here is a modelling choice; no claim depends on them before they
are first assigned). -/
structure RawArray where
  keyword : List Nat := List.replicate 8 0
  type : List Nat := List.replicate 4 0
  count : Int := 0
  body : List Nat := []
deriving DecidableEq

/-- `raw_array::empty`: the end-of-stream sentinel is `count == -1`. -/
def RawArray.emptyArr (a : RawArray) : Bool := a.count = -1

/-- Errors surfaced by the reader. `eofShort` models the `Stream::failure`
exception a short read raises outside the one guarded spot (the head integer
of a header record); `headTail` is `head_tail_error` and carries the two
decoded integers; `unknownType` is the `std::invalid_argument` of `read_body`;
`bodyErr` is the `runtime_error` for a failing `ecl3_array_body`;
`notTerminated` is `array not terminated correctly`; `headerErr` is
`header_error`; `lengthErr` is the `std::length_error` that
`buffer.resize(elems)` raises when a body record's length marker decodes to a
negative `int32` (the negative converts to a huge `size_t`), thrown before the
record's tail is read. The remaining constructors belong to `readall`
(src/unnamed/part_003). -/
inductive Err where
  | headTail (h t : Int)
  | headerErr
  | unknownType (tag : List Nat)
  | bodyErr
  | notTerminated
  | eofShort
  | lengthErr
  | fuelOut
  | brokenFile
  | expectFail
  | ueofMinistep
  | ueofParams
deriving DecidableEq

/-- Read exactly `n` bytes from the front of the stream, or fail (the model's
only read failure is exhaustion, i.e. the eofbit path of the source). -/
def readBytes (n : Nat) (s : List Nat) : Option (List Nat × List Nat) :=
  if n ≤ s.length then some (s.take n, s.drop n) else none

/-- `check_headtail` (io.hpp): equal byte arrays pass; a mismatch throws
`head_tail_error` carrying both integers decoded with
`ecl3_get_native(..., ECL3_INTE, 1)`. -/
def check_headtail (head tail : List Nat) : Except Err Unit :=
  if head = tail then .ok ()
  else .error (.headTail (host_i32 head) (host_i32 tail))

/-- `stream_reader::read_head` (io.hpp). The head integer is read inside a
`try`: on failure with `eof()` set, the sentinel `count = -1` is stored and the
call returns successfully (this also happens after a truncated read of 1-3 bytes
followed by end-of-file, since `eof()` is then set as well). All later reads
are unguarded, so a short read there propagates. Then `check_headtail`, then
`ecl3_array_header` into `last`, with a dead error branch (`headerErr`). -/
def read_head (s : List Nat) (last : RawArray) : Except Err (RawArray × List Nat) :=
  match readBytes 4 s with
  | none => .ok ({ last with count := -1 }, s)
  | some (hb, s1) =>
    match readBytes 16 s1 with
    | none => .error .eofShort
    | some (hdr, s2) =>
      match readBytes 4 s2 with
      | none => .error .eofShort
      | some (tb, s3) =>
        match check_headtail hb tb with
        | .error e => .error e
        | .ok _ =>
          match ecl3_array_header hdr with
          | (err, kw, cnt, ty) =>
            if err = ECL3_OK then
              .ok ({ last with keyword := kw, type := ty, count := cnt }, s3)
            else .error .headerErr

/-- Pad or truncate `seg` to exactly `n` bytes (missing bytes 0). Models the
effect of `body.resize(prev_size + elems)` followed by writing the decoded
bytes at `prev_size`: the vector holds `elems` fresh zero bytes of which the
decode overwrites the first `count * size` (writing more than `elems` bytes,
which the C++ does when a record is shorter than the declared block, is heap
overflow — undefined behaviour; this model truncates). -/
def takePad (n : Nat) (seg : List Nat) : List Nat :=
  (seg ++ List.replicate (n - seg.length) 0).take n

/-- The body loop of `stream_reader::read_body` (io.hpp): while elements
remain, read one framed record (`elems` is its byte length), decode
`min(remaining, blocksize)` elements out of it with `ecl3_array_body`, grow
the body by `elems` bytes, and subtract the decoded element count. A length
marker decoding to a negative `int32` fails with `lengthErr` immediately after
the marker is read — `buffer.resize(elems)` throws before the payload and tail
are touched. `fuel`
bounds the iteration count for structural recursion; since every iteration
decodes `min(remaining, blocksize) ≥ 1` elements whenever `blocksize ≥ 1`
(and `ecl3_block_size` is always positive), `fuel = remaining` never runs
out on the loop's actual uses. -/
def read_blocks (ty : Int) (blocksize : Nat) :
    Nat → Nat → List Nat → List Nat → Except Err (List Nat × List Nat)
  | _, 0, s, body => .ok (body, s)
  | 0, _ + 1, _, _ => .error .fuelOut
  | fuel + 1, r + 1, s, body =>
    match readBytes 4 s with
    | none => .error .eofShort
    | some (hb, s1) =>
      if toInt32 (be32 hb) < 0 then .error .lengthErr
      else
        match readBytes (toInt32 (be32 hb)).toNat s1 with
        | none => .error .eofShort
        | some (buf, s2) =>
          match readBytes 4 s2 with
          | none => .error .eofShort
          | some (tb, s3) =>
            match check_headtail hb tb with
            | .error e => .error e
            | .ok _ =>
              if ecl3_get_native_err ty = ECL3_OK then
                let n := min (r + 1) blocksize
                read_blocks ty blocksize fuel (r + 1 - n) s3
                  (body ++ takePad (toInt32 (be32 hb)).toNat
                    (ecl3_get_native ty n buf))
              else .error .bodyErr

/-- `stream_reader::read_body` (io.hpp): resolve the type of `last` with
`ecl3_typeid` (throwing `invalid_argument` for an unknown tag — this check
runs before any body record is read, so it fires even for `count = 0`), clear
the body, then run the record loop. A negative element count skips the loop
and fails the final `remaining != 0` check (`notTerminated`); the loop itself
always ends at exactly 0. -/
def read_body (last : RawArray) (s : List Nat) : Except Err (RawArray × List Nat) :=
  match ecl3_typeid last.type with
  | none => .error (.unknownType last.type)
  | some ty =>
    if 0 < last.count then
      match read_blocks ty (ecl3_block_size ty) last.count.toNat last.count.toNat s [] with
      | .error e => .error e
      | .ok (body, s1) => .ok ({ last with body := body }, s1)
    else if last.count = 0 then .ok ({ last with body := [] }, s)
    else .error .notTerminated

/-- `stream_reader` state: the underlying stream, the scratch `last` array and
the `ungetted` flag. -/
structure Reader where
  stream : List Nat
  last : RawArray := {}
  ungetted : Bool := false
deriving DecidableEq

/-- `stream_reader::next` (io.hpp): while `ungetted` is set, clear it and
return the cached array; otherwise `read_head`, then — unless the sentinel was
stored — `read_body`. -/
def reader_next (r : Reader) : Except Err (RawArray × Reader) :=
  if r.ungetted then .ok (r.last, { r with ungetted := false })
  else
    match read_head r.stream r.last with
    | .error e => .error e
    | .ok (a, s1) =>
      if a.emptyArr then .ok (a, { r with last := a, stream := s1 })
      else
        match read_body a s1 with
        | .error e => .error e
        | .ok (a2, s2) => .ok (a2, { r with last := a2, stream := s2 })

/-- `stream_reader::unget` (io.hpp): set the flag. -/
def reader_unget (r : Reader) : Reader := { r with ungetted := true }

/-! ## Summary keyword classifier (`ecl3_params_identifies`,
`lib/src/summary.cpp`)

Keywords and specifier names are carried as `List Char`. The C function reads
`keyword[0]` and (in some branches) `keyword[1]` — modelled with `getD`, the
default standing for the byte a C read would find past a short string — and
compares `std::string(type, 8)` and `std::string(keyword, 8)` against 8-byte
constants, modelled as whole-list equality. -/

def wgnames_tag : List Char := "WGNAMES ".data
def nums_tag : List Char := "NUMS    ".data
def lgrs_tag : List Char := "LGRS    ".data
def numlx_tag : List Char := "NUMLX   ".data
def numly_tag : List Char := "NUMLY   ".data
def numlz_tag : List Char := "NUMLZ   ".data

/-- The six specifier tags the library exposes for iteration, in source order. -/
def specifier_tags : List (List Char) :=
  [wgnames_tag, nums_tag, lgrs_tag, numlx_tag, numly_tag, numlz_tag]

/-- `ecl3_params_identifies` (lib/src/summary.cpp): the number of specifiers a
keyword needs if the given specifier contributes to it, else 0. -/
def ecl3_params_identifies (id : List Char) (keyword : List Char) : Nat :=
  if keyword.getD 0 ' ' = 'A' then (if id = nums_tag then 1 else 0)
  else if keyword.getD 0 ' ' = 'B' then (if id = nums_tag then 1 else 0)
  else if keyword.getD 0 ' ' = 'C' then
    (if id = wgnames_tag ∨ id = nums_tag then 2 else 0)
  else if keyword.getD 0 ' ' = 'G' then
    (if keyword.getD 1 ' ' = 'M' then 0 else if id = wgnames_tag then 1 else 0)
  else if keyword.getD 0 ' ' = 'W' then
    (if keyword.getD 1 ' ' = 'M' then 0
     else if keyword = "WNEWTON ".data then 0
     else if id = wgnames_tag then 1 else 0)
  else if keyword.getD 0 ' ' = 'P' then (if id = wgnames_tag then 1 else 0)
  else if keyword.getD 0 ' ' = 'R' then (if id = nums_tag then 1 else 0)
  else if keyword.getD 0 ' ' = 'L' then
    (if keyword.getD 1 ' ' = 'B' then
       (if id = lgrs_tag ∨ id = numlx_tag ∨ id = numly_tag ∨ id = numlz_tag
        then 4 else 0)
     else if keyword.getD 1 ' ' = 'C' then
       (if id = lgrs_tag ∨ id = wgnames_tag ∨ id = numlx_tag ∨ id = numly_tag
           ∨ id = numlz_tag
        then 4 else 0)
     else if keyword.getD 1 ' ' = 'W' then
       (if id = lgrs_tag ∨ id = wgnames_tag then 2 else 0)
     else 0)
  else if keyword.getD 0 ' ' = 'N' then
    (if keyword = "NEWTON  ".data then 0
     else if keyword = "NAIMFRAC".data then 0
     else if keyword = "NLINEARS".data then 0
     else if keyword = "NLINSMIN".data then 0
     else if keyword = "NLINSMAX".data then 0
     else if id = wgnames_tag then 1 else 0)
  else if keyword.getD 0 ' ' = 'S' then
    (if keyword = "STEPTYPE".data then 0
     else if keyword.take 4 = "SGAS".data then 0
     else if keyword.take 4 = "SOIL".data then 0
     else if keyword.take 4 = "SWAT".data then 0
     else if id = wgnames_tag ∨ id = nums_tag then 2 else 0)
  else 0

/-! ## Column plans (`columns`, src/unnamed/part_003 and src/unnamed/part_002)

Both modules iterate over the `.SMSPEC` vectors, building the fully qualified
name of column `i` by appending each contributing qualifier, `continue`-ing
(dropping the column) when a required qualifier is void. The io.hpp-based
module (part_003) additionally skips a column whose qualified name was already
emitted; part_002 does not. In part_003 the `LGRS` entry is cast to a string,
in part_002 to an `int32`. -/

/-- `is_void` for strings (both modules). -/
def is_void_str (s : String) : Bool := s = ":+:+:+:+" ∨ s = "        "

/-- `is_void` for integers (both modules). -/
def is_void_int (i : Int) : Bool := i < 0

/-- One qualifier step with a string value: when `active` (the specifier
identifies the keyword, and — for the optional vectors — the vector is
non-empty), a void value drops the column (`none`), otherwise the value is
appended; when inactive the name passes through. -/
def addQualStr (idn : String) (sep : String) (active : Bool) (q : String) :
    Option String :=
  if active then (if is_void_str q then none else some (idn ++ sep ++ q))
  else some idn

/-- One qualifier step with an integer value (the integer is printed in
decimal, as `stringstream <<` does). -/
def addQualInt (idn : String) (sep : String) (active : Bool) (q : Int) :
    Option String :=
  if active then (if is_void_int q then none else some (idn ++ sep ++ toString q))
  else some idn

/-- The loop body of `columns` (part_003) for one index: the qualified name of
the column, or `none` if the column is dropped for a void qualifier. Qualifier
order as in the source: `WGNAMES`, `NUMS`, `LGRS` (string), `NUMLX`, `NUMLY`,
`NUMLZ`. -/
def column_id (sep kw wg : String) (num : Int) (lgrsEmpty : Bool) (lgr : String)
    (nxEmpty : Bool) (nx : Int) (nyEmpty : Bool) (ny : Int)
    (nzEmpty : Bool) (nz : Int) : Option String :=
  (addQualStr kw sep (ecl3_params_identifies wgnames_tag kw.data != 0) wg).bind
    fun s1 => (addQualInt s1 sep (ecl3_params_identifies nums_tag kw.data != 0) num).bind
    fun s2 => (addQualStr s2 sep (!lgrsEmpty && ecl3_params_identifies lgrs_tag kw.data != 0) lgr).bind
    fun s3 => (addQualInt s3 sep (!nxEmpty && ecl3_params_identifies numlx_tag kw.data != 0) nx).bind
    fun s4 => (addQualInt s4 sep (!nyEmpty && ecl3_params_identifies numly_tag kw.data != 0) ny).bind
    fun s5 => addQualInt s5 sep (!nzEmpty && ecl3_params_identifies numlz_tag kw.data != 0) nz

/-- `column_id` read off the `.SMSPEC` vectors at index `i` (out-of-range
entries default; the asserts in the source rule the defaults out for real
inputs). -/
def column_id_at (sep : String) (keywords wgnames : List String) (nums : List Int)
    (lgrs : List String) (numlx numly numlz : List Int) (i : Nat) : Option String :=
  column_id sep (keywords.getD i "") (wgnames.getD i "") (nums.getD i 0)
    lgrs.isEmpty (lgrs.getD i "") numlx.isEmpty (numlx.getD i 0)
    numly.isEmpty (numly.getD i 0) numlz.isEmpty (numlz.getD i 0)

/-- The accumulation loop shared by both `columns` implementations,
parameterised by the per-index name function `f` and by whether duplicate
names are skipped (`dedup`). Processes indices `i0, i0+1, ...` for `n` steps,
appending kept names to `names` and their indices to `pos`. -/
def planFrom (f : Nat → Option String) (dedup : Bool) :
    Nat → Nat → List String → List Nat → List String × List Nat
  | _, 0, names, pos => (names, pos)
  | i0, n + 1, names, pos =>
    match f i0 with
    | none => planFrom f dedup (i0 + 1) n names pos
    | some nm =>
      if dedup ∧ nm ∈ names then planFrom f dedup (i0 + 1) n names pos
      else planFrom f dedup (i0 + 1) n (names ++ [nm]) (pos ++ [i0])

/-- `columns` (src/unnamed/part_003): returns `(names, pos)`, skipping
duplicate qualified names. -/
def columns (sep : String) (keywords wgnames : List String) (nums : List Int)
    (lgrs : List String) (numlx numly numlz : List Int) :
    List String × List Nat :=
  planFrom (column_id_at sep keywords wgnames nums lgrs numlx numly numlz) true
    0 keywords.length [] []

/-- The loop body of `columns` (src/unnamed/part_002): identical to
`column_id` except that the `LGRS` entry is cast to `std::int32_t`. -/
def column_id_v2 (sep kw wg : String) (num : Int) (lgrsEmpty : Bool) (lgr : Int)
    (nxEmpty : Bool) (nx : Int) (nyEmpty : Bool) (ny : Int)
    (nzEmpty : Bool) (nz : Int) : Option String :=
  (addQualStr kw sep (ecl3_params_identifies wgnames_tag kw.data != 0) wg).bind
    fun s1 => (addQualInt s1 sep (ecl3_params_identifies nums_tag kw.data != 0) num).bind
    fun s2 => (addQualInt s2 sep (!lgrsEmpty && ecl3_params_identifies lgrs_tag kw.data != 0) lgr).bind
    fun s3 => (addQualInt s3 sep (!nxEmpty && ecl3_params_identifies numlx_tag kw.data != 0) nx).bind
    fun s4 => (addQualInt s4 sep (!nyEmpty && ecl3_params_identifies numly_tag kw.data != 0) ny).bind
    fun s5 => addQualInt s5 sep (!nzEmpty && ecl3_params_identifies numlz_tag kw.data != 0) nz

/-- `columns` (src/unnamed/part_002): no duplicate check — every kept index
pushes its name and position. -/
def columns_v2 (sep : String) (keywords wgnames : List String) (nums lgrs numlx numly numlz : List Int) :
    List String × List Nat :=
  planFrom
    (fun i => column_id_v2 sep (keywords.getD i "") (wgnames.getD i "")
      (nums.getD i 0) lgrs.isEmpty (lgrs.getD i 0) numlx.isEmpty (numlx.getD i 0)
      numly.isEmpty (numly.getD i 0) numlz.isEmpty (numlz.getD i 0))
    false 0 keywords.length [] []

/-! ## Summary matrix assembler (`readall`, src/unnamed/part_003)

`readall` talks to the stream only through `stream_reader::next`/`unget`, so
it is embedded over that interface: an `ArrState` holds the sequence of
logical arrays the underlying byte stream yields (in on-disk order), together
with the reader's `last`/`ungetted` state, and `anext`/`aunget` mirror
`next`/`unget` at this level. A row is modelled structurally instead of as
24ish raw bytes: the `report_step` integer, the four bytes copied from the
`MINISTEP` body, and the 4-byte groups copied from the `PARAMS` body at the
plan positions (the staging buffer, its doubling, and the final single
`memcpy` into the allocator's buffer preserve the rows byte-for-byte and are
not re-modelled). -/

def SEQHDR_kw : List Nat := bytesOfAscii "SEQHDR  "
def MINISTEP_kw : List Nat := bytesOfAscii "MINISTEP"
def PARAMS_kw : List Nat := bytesOfAscii "PARAMS  "
def INTE_tag : List Nat := bytesOfAscii "INTE"

/-- Array-level reader state. -/
structure ArrState where
  arrays : List RawArray
  last : RawArray := {}
  ungetted : Bool := false
deriving DecidableEq

/-- Array-level `next`: cached array while `ungetted`; at the end of the
sequence, the sentinel (`last` with `count = -1`), as `read_head` produces it. -/
def anext (st : ArrState) : RawArray × ArrState :=
  if st.ungetted then (st.last, { st with ungetted := false })
  else
    match st.arrays with
    | [] =>
      let l := { st.last with count := (-1 : Int) }
      (l, { st with last := l })
    | a :: rest => (a, { st with last := a, arrays := rest })

/-- Array-level `unget`. -/
def aunget (st : ArrState) : ArrState := { st with ungetted := true }

/-- One emitted row: the value of `report_step` at emission time, the four
bytes copied from the `MINISTEP` body, and one 4-byte group per plan entry
copied from offset `p * 4` of the `PARAMS` body. -/
structure Row where
  report_step : Int
  mini : List Nat
  vals : List (List Nat)
deriving DecidableEq

/-- The 4 bytes at offset `p * 4` of a body (out-of-range bytes 0, standing
for the indeterminate bytes the C `memcpy` would read). -/
def slice4 (body : List Nat) (p : Nat) : List Nat :=
  (List.range 4).map (fun k => body.getD (p * 4 + k) 0)

/-- The `while (true)` loop of `readall`. `report_step` is threaded through
exactly as in the source: note that no branch modifies it. `fuel` bounds the
iteration count for structural recursion; every iteration removes at least one
array from the state, so `arrays.length + 2` iterations always suffice and the
`fuelOut` branch is unreachable from `readall`. -/
def readall_loop (pos : List Nat) :
    Nat → ArrState → Int → List Row → Except Err (List Row)
  | 0, _, _, _ => .error .fuelOut
  | fuel + 1, st, report_step, acc =>
    let (ministep, st1) := anext st
    if ministep.emptyArr then .ok acc
    else if ministep.keyword = SEQHDR_kw then
      let (nxt, st2) := anext st1
      if nxt.emptyArr then .error .ueofMinistep
      else readall_loop pos fuel (aunget st2) report_step acc
    else if ministep.keyword ≠ MINISTEP_kw then .error .expectFail
    else if ministep.type ≠ INTE_tag then .error .expectFail
    else
      let (params, st2) := anext st1
      if params.emptyArr then .error .ueofParams
      else if params.keyword ≠ PARAMS_kw then .error .expectFail
      else
        readall_loop pos fuel st2 report_step
          (acc ++ [{ report_step := report_step,
                     mini := slice4 ministep.body 0,
                     vals := pos.map (slice4 params.body) }])

/-- `readall` (src/unnamed/part_003): check the initial `SEQHDR` of type
`INTE`, set `report_step = 1`, and run the loop. -/
def readall (arrays : List RawArray) (pos : List Nat) : Except Err (List Row) :=
  let st0 : ArrState := { arrays := arrays }
  let (seqhdr, st1) := anext st0
  if seqhdr.emptyArr then .error .brokenFile
  else if seqhdr.keyword ≠ SEQHDR_kw then .error .expectFail
  else if seqhdr.type ≠ INTE_tag then .error .expectFail
  else readall_loop pos (arrays.length + 2) st1 1 []
/-! ## Serialization helpers and concrete inputs used by witnesses and
counterexamples -/

/-- A Fortran-unformatted framed record: 4-byte big-endian byte count, the
payload, and the equal tail marker. -/
def framed (payload : List Nat) : List Nat :=
  enc32 payload.length ++ payload ++ enc32 payload.length

/-- A 16-byte keyword header payload: 8-byte name, big-endian count, 4-byte
type tag. -/
def mkheader (name : String) (count : Nat) (tag : String) : List Nat :=
  bytesOfAscii name ++ enc32 count ++ bytesOfAscii tag

def REAL_tag : List Nat := bytesOfAscii "REAL"

/-- Conformity of a list of body-record payloads with the blocking schedule of
spec §4.3/§6: with `r` elements remaining, the next record carries exactly
`size * min r blocksize` bytes, and the records end exactly when `r = 0`. -/
inductive ConformingSegs (size blocksize : Nat) : Nat → List (List Nat) → Prop
  | nil : ConformingSegs size blocksize 0 []
  | cons (r : Nat) (seg : List Nat) (rest : List (List Nat)) :
      seg.length = size * min (r + 1) blocksize →
      ConformingSegs size blocksize (r + 1 - min (r + 1) blocksize) rest →
      ConformingSegs size blocksize (r + 1) (seg :: rest)

/-- The `.UNSMRY` array sequence with two report steps used to exhibit the
behaviour of `readall`: `SEQHDR`, one `MINISTEP`/`PARAMS` pair, a second
`SEQHDR`, a second `MINISTEP`/`PARAMS` pair. -/
def c1_arrays : List RawArray :=
  [ { keyword := SEQHDR_kw, type := INTE_tag, count := 1, body := [1, 0, 0, 0] },
    { keyword := MINISTEP_kw, type := INTE_tag, count := 1, body := [0, 0, 0, 0] },
    { keyword := PARAMS_kw, type := REAL_tag, count := 1, body := [10, 20, 30, 40] },
    { keyword := SEQHDR_kw, type := INTE_tag, count := 1, body := [2, 0, 0, 0] },
    { keyword := MINISTEP_kw, type := INTE_tag, count := 1, body := [1, 0, 0, 0] },
    { keyword := PARAMS_kw, type := REAL_tag, count := 1, body := [11, 21, 31, 41] } ]

/-- A well-framed header record whose type tag `QQQQ` is not an enumerated
type. -/
def c3_stream : List Nat := framed (mkheader "KEY     " 0 "QQQQ")

/-- A well-framed stream with one `INTE` array of one element whose single
body record carries 8 payload bytes instead of the conforming 4. -/
def c6_stream : List Nat :=
  framed (mkheader "KEY     " 1 "INTE") ++ framed [9, 9, 9, 9, 5, 5, 5, 5]

/-- A well-framed single-array stream (`INTE`, one element). -/
def c4_stream : List Nat :=
  framed (mkheader "KEY     " 1 "INTE") ++ framed [0, 0, 0, 7]

/-- A 16-byte header payload: name `WGNAMES `, count 3, type `CHAR`. -/
def c10_header : List Nat := mkheader "WGNAMES " 3 "CHAR"
/-- The raw array `reader_next` produces from `c6_stream`: the body holds the
record's 8 bytes, not `count * element_size = 4`. -/
def c6_array : RawArray :=
  { keyword := bytesOfAscii "KEY     ", type := bytesOfAscii "INTE",
    count := 1, body := [9, 9, 9, 9, 0, 0, 0, 0] }

/-- The raw array `reader_next` produces from `c4_stream`. -/
def c4_array : RawArray :=
  { keyword := bytesOfAscii "KEY     ", type := bytesOfAscii "INTE",
    count := 1, body := [7, 0, 0, 0] }

/-- An `INTE` array descriptor with two elements, used with a conforming
single-record body. -/
def c6w_array : RawArray :=
  { keyword := bytesOfAscii "KEY     ", type := bytesOfAscii "INTE", count := 2 }

/-! ## Helper lemmas -/

theorem enc32_length (n : Nat) : (enc32 n).length = 4 := rfl

theorem be32_enc32 (n : Nat) (h : n < 4294967296) : be32 (enc32 n) = n := by
  simp only [be32, enc32, List.getD, List.get?_cons_zero, List.get?_cons_succ,
    Option.getD_some]
  omega

theorem toInt32_small (n : Nat) (h : n < 2147483648) : toInt32 n = (n : Int) := by
  simp only [toInt32]
  rw [Nat.mod_eq_of_lt (by omega)]
  simp [h]

theorem host_i32_enc32 (n : Nat) (h : n < 2147483648) :
    host_i32 (enc32 n) = (n : Int) := by
  rw [host_i32, be32_enc32 n (by omega), toInt32_small n h]

theorem ecl3_block_size_pos (ty : Int) : 0 < ecl3_block_size ty := by
  unfold ecl3_block_size
  split <;> omega

theorem ecl3_get_native_length (ty : Int) (n : Nat) (src : List Nat) :
    (ecl3_get_native ty n src).length = n * ecl3_type_size ty := by
  unfold ecl3_get_native
  induction n with
  | zero => simp
  | succ m ih =>
    rw [List.range_succ, List.flatMap_append, List.length_append, ih]
    simp only [List.flatMap_cons, List.flatMap_nil, List.append_nil]
    split <;> simp [Nat.succ_mul]

theorem readBytes_exact (a b : List Nat) (n : Nat) (h : a.length = n) :
    readBytes n (a ++ b) = some (a, b) := by
  subst h
  simp [readBytes, List.take_left, List.drop_left]

theorem takePad_exact (n : Nat) (seg : List Nat) (h : seg.length = n) :
    takePad n seg = seg := by
  subst h
  simp [takePad]

theorem read_blocks_conforming (ty : Int) (size bsize : Nat)
    (hsize : ecl3_type_size ty = size) (hok : ecl3_get_native_err ty = ECL3_OK)
    (hbpos : 0 < bsize) (hbound : size * bsize < 2147483648)
    (r : Nat) (segs : List (List Nat))
    (hconf : ConformingSegs size bsize r segs) :
    ∀ (fuel : Nat), r ≤ fuel → ∀ (rest body : List Nat),
      ∃ extra : List Nat,
        read_blocks ty bsize fuel r ((segs.map framed).flatten ++ rest) body =
          .ok (body ++ extra, rest) ∧ extra.length = size * r := by
  induction hconf with
  | nil =>
    intro fuel _ rest body
    refine ⟨[], ?_, by simp⟩
    cases fuel <;> simp [read_blocks]
  | cons r seg segs' hlen hconf' ih =>
    intro fuel hfuel rest body
    obtain ⟨fuel', rfl⟩ : ∃ f, fuel = f + 1 := ⟨fuel - 1, by omega⟩
    have hminb : min (r + 1) bsize ≤ bsize := Nat.min_le_right _ _
    have hminr : min (r + 1) bsize ≤ r + 1 := Nat.min_le_left _ _
    have hmin1 : 1 ≤ min (r + 1) bsize := by omega
    have hLlt : seg.length < 2147483648 := by
      have := Nat.mul_le_mul_left size hminb
      omega
    have hstream : ((((seg :: segs').map framed).flatten) ++ rest)
        = enc32 seg.length ++ (seg ++ (enc32 seg.length ++
            ((segs'.map framed).flatten ++ rest))) := by
      simp [framed, List.append_assoc]
    rw [hstream]
    simp only [read_blocks]
    rw [readBytes_exact _ _ 4 (enc32_length _)]
    simp only [be32_enc32 seg.length (by omega), toInt32_small seg.length hLlt,
      Int.toNat_natCast, readBytes_exact _ _ seg.length rfl,
      readBytes_exact _ _ 4 (enc32_length _), check_headtail, if_pos rfl, hok]
    have hdeclen : (ecl3_get_native ty (min (r + 1) bsize) seg).length = seg.length := by
      rw [ecl3_get_native_length, hsize, hlen, Nat.mul_comm]
    rw [takePad_exact _ _ hdeclen]
    obtain ⟨extra2, heq, hlen2⟩ :=
      ih fuel' (by omega) rest (body ++ ecl3_get_native ty (min (r + 1) bsize) seg)
    refine ⟨ecl3_get_native ty (min (r + 1) bsize) seg ++ extra2, ?_, ?_⟩
    · simp [heq, List.append_assoc]
    · rw [List.length_append, hdeclen, hlen, hlen2, ← Nat.mul_add]
      congr 1
      omega


theorem planFrom_zero (f : Nat → Option String) (dedup : Bool) (i0 : Nat)
    (names : List String) (pos : List Nat) :
    planFrom f dedup i0 0 names pos = (names, pos) := rfl

theorem planFrom_succ_none (f : Nat → Option String) (dedup : Bool)
    (i0 n : Nat) (names : List String) (pos : List Nat) (h : f i0 = none) :
    planFrom f dedup i0 (n + 1) names pos =
      planFrom f dedup (i0 + 1) n names pos := by
  simp [planFrom, h]

theorem planFrom_succ_skip (f : Nat → Option String) (dedup : Bool)
    (i0 n : Nat) (names : List String) (pos : List Nat) (nm : String)
    (h : f i0 = some nm) (hc : dedup = true ∧ nm ∈ names) :
    planFrom f dedup i0 (n + 1) names pos =
      planFrom f dedup (i0 + 1) n names pos := by
  simp only [planFrom, h]
  rw [if_pos hc]

theorem planFrom_succ_keep (f : Nat → Option String) (dedup : Bool)
    (i0 n : Nat) (names : List String) (pos : List Nat) (nm : String)
    (h : f i0 = some nm) (hc : ¬(dedup = true ∧ nm ∈ names)) :
    planFrom f dedup i0 (n + 1) names pos =
      planFrom f dedup (i0 + 1) n (names ++ [nm]) (pos ++ [i0]) := by
  simp only [planFrom, h]
  rw [if_neg hc]

theorem planFrom_length (f : Nat → Option String) (dedup : Bool) :
    ∀ (n i0 : Nat) (names : List String) (pos : List Nat),
      names.length = pos.length →
      (planFrom f dedup i0 n names pos).1.length =
        (planFrom f dedup i0 n names pos).2.length := by
  intro n
  induction n with
  | zero => intro i0 names pos h; rw [planFrom_zero]; exact h
  | succ m ih =>
    intro i0 names pos h
    cases hf : f i0 with
    | none => rw [planFrom_succ_none f dedup i0 m names pos hf]; exact ih _ _ _ h
    | some nm =>
      by_cases hc : dedup = true ∧ nm ∈ names
      · rw [planFrom_succ_skip f dedup i0 m names pos nm hf hc]
        exact ih _ _ _ h
      · rw [planFrom_succ_keep f dedup i0 m names pos nm hf hc]
        exact ih _ _ _ (by simp [h])

theorem planFrom_pos_mem (f : Nat → Option String) (dedup : Bool) :
    ∀ (n i0 : Nat) (names : List String) (pos : List Nat) (y : Nat),
      y ∈ (planFrom f dedup i0 n names pos).2 →
      y ∈ pos ∨ (i0 ≤ y ∧ y < i0 + n) := by
  intro n
  induction n with
  | zero =>
    intro i0 names pos y h
    rw [planFrom_zero] at h
    exact Or.inl h
  | succ m ih =>
    intro i0 names pos y h
    have shift : y ∈ pos ∨ y = i0 ∨ (i0 + 1 ≤ y ∧ y < i0 + 1 + m) →
        y ∈ pos ∨ (i0 ≤ y ∧ y < i0 + (m + 1)) := by
      rintro (h' | rfl | ⟨h1, h2⟩)
      · exact Or.inl h'
      · exact Or.inr ⟨le_refl _, by omega⟩
      · exact Or.inr ⟨by omega, by omega⟩
    cases hf : f i0 with
    | none =>
      rw [planFrom_succ_none f dedup i0 m names pos hf] at h
      rcases ih _ _ _ _ h with h' | h'
      · exact shift (Or.inl h')
      · exact shift (Or.inr (Or.inr h'))
    | some nm =>
      by_cases hc : dedup = true ∧ nm ∈ names
      · rw [planFrom_succ_skip f dedup i0 m names pos nm hf hc] at h
        rcases ih _ _ _ _ h with h' | h'
        · exact shift (Or.inl h')
        · exact shift (Or.inr (Or.inr h'))
      · rw [planFrom_succ_keep f dedup i0 m names pos nm hf hc] at h
        rcases ih _ _ _ _ h with h' | h'
        · rcases List.mem_append.mp h' with h'' | h''
          · exact shift (Or.inl h'')
          · exact shift (Or.inr (Or.inl (by simpa using h'')))
        · exact shift (Or.inr (Or.inr h'))

theorem planFrom_none_not_mem (f : Nat → Option String) (dedup : Bool) :
    ∀ (n i0 : Nat) (names : List String) (pos : List Nat) (i : Nat),
      f i = none → i ∉ pos →
      i ∉ (planFrom f dedup i0 n names pos).2 := by
  intro n
  induction n with
  | zero =>
    intro i0 names pos i _ hpos
    rw [planFrom_zero]
    exact hpos
  | succ m ih =>
    intro i0 names pos i hfi hpos
    cases hf : f i0 with
    | none =>
      rw [planFrom_succ_none f dedup i0 m names pos hf]
      exact ih _ _ _ _ hfi hpos
    | some nm =>
      have hne : i0 ≠ i := by
        intro h
        rw [h, hfi] at hf
        exact Option.noConfusion hf
      by_cases hc : dedup = true ∧ nm ∈ names
      · rw [planFrom_succ_skip f dedup i0 m names pos nm hf hc]
        exact ih _ _ _ _ hfi hpos
      · rw [planFrom_succ_keep f dedup i0 m names pos nm hf hc]
        refine ih _ _ _ _ hfi ?_
        intro hmem
        rcases List.mem_append.mp hmem with h' | h'
        · exact hpos h'
        · have heq : i = i0 := by simpa using h'
          exact hne heq.symm

theorem planFrom_zip_mono (f : Nat → Option String) (dedup : Bool) :
    ∀ (n i0 : Nat) (names : List String) (pos : List Nat) (nm : String) (y : Nat),
      names.length = pos.length →
      (nm, y) ∈ names.zip pos →
      (nm, y) ∈ (planFrom f dedup i0 n names pos).1.zip
        (planFrom f dedup i0 n names pos).2 := by
  intro n
  induction n with
  | zero =>
    intro i0 names pos nm y _ h
    rw [planFrom_zero]
    exact h
  | succ m ih =>
    intro i0 names pos nm y hlen h
    cases hf : f i0 with
    | none =>
      rw [planFrom_succ_none f dedup i0 m names pos hf]
      exact ih _ _ _ _ _ hlen h
    | some nm' =>
      by_cases hc : dedup = true ∧ nm' ∈ names
      · rw [planFrom_succ_skip f dedup i0 m names pos nm' hf hc]
        exact ih _ _ _ _ _ hlen h
      · rw [planFrom_succ_keep f dedup i0 m names pos nm' hf hc]
        refine ih _ _ _ _ _ (by simp [hlen]) ?_
        rw [List.zip_append hlen]
        exact List.mem_append.mpr (Or.inl h)

theorem planFrom_keep_first (f : Nat → Option String) (dedup : Bool) :
    ∀ (n i0 : Nat) (names : List String) (pos : List Nat) (i : Nat) (nm : String),
      names.length = pos.length →
      i0 ≤ i → i < i0 + n → f i = some nm →
      (∀ j, i0 ≤ j → j < i → f j ≠ some nm) →
      nm ∉ names →
      (nm, i) ∈ (planFrom f dedup i0 n names pos).1.zip
        (planFrom f dedup i0 n names pos).2 := by
  intro n
  induction n with
  | zero => intro i0 names pos i nm _ h1 h2; omega
  | succ m ih =>
    intro i0 names pos i nm hlen hle hlt hfi hfirst hnot
    by_cases hi : i0 = i
    · subst hi
      have hc : ¬(dedup = true ∧ nm ∈ names) := fun h => hnot h.2
      rw [planFrom_succ_keep f dedup i0 m names pos nm hfi hc]
      refine planFrom_zip_mono f dedup _ _ _ _ _ _ (by simp [hlen]) ?_
      rw [List.zip_append hlen]
      exact List.mem_append.mpr (Or.inr (by simp))
    · have hlt0 : i0 < i := by omega
      cases hf : f i0 with
      | none =>
        rw [planFrom_succ_none f dedup i0 m names pos hf]
        exact ih _ _ _ _ _ hlen (by omega) (by omega) hfi
          (fun j hj1 hj2 => hfirst j (by omega) hj2) hnot
      | some nm' =>
        have hne : nm' ≠ nm := by
          intro h
          apply hfirst i0 (le_refl i0) hlt0
          rw [hf, h]
        by_cases hc : dedup = true ∧ nm' ∈ names
        · rw [planFrom_succ_skip f dedup i0 m names pos nm' hf hc]
          exact ih _ _ _ _ _ hlen (by omega) (by omega) hfi
            (fun j hj1 hj2 => hfirst j (by omega) hj2) hnot
        · rw [planFrom_succ_keep f dedup i0 m names pos nm' hf hc]
          refine ih _ _ _ _ _ (by simp [hlen]) (by omega) (by omega) hfi
            (fun j hj1 hj2 => hfirst j (by omega) hj2) ?_
          intro hmem
          rcases List.mem_append.mp hmem with h' | h'
          · exact hnot h'
          · have heq : nm = nm' := by simpa using h'
            exact hne heq.symm

theorem planFrom_nodup (f : Nat → Option String) :
    ∀ (n i0 : Nat) (names : List String) (pos : List Nat),
      names.Nodup → (planFrom f true i0 n names pos).1.Nodup := by
  intro n
  induction n with
  | zero =>
    intro i0 names pos h
    rw [planFrom_zero]
    exact h
  | succ m ih =>
    intro i0 names pos h
    cases hf : f i0 with
    | none =>
      rw [planFrom_succ_none f true i0 m names pos hf]
      exact ih _ _ _ h
    | some nm =>
      by_cases hc : (true : Bool) = true ∧ nm ∈ names
      · rw [planFrom_succ_skip f true i0 m names pos nm hf hc]
        exact ih _ _ _ h
      · rw [planFrom_succ_keep f true i0 m names pos nm hf hc]
        have hnot : nm ∉ names := fun hmem => hc ⟨rfl, hmem⟩
        exact ih _ _ _ (by simp [List.nodup_append, h, hnot])

theorem planFrom_dup_dropped (f : Nat → Option String) :
    ∀ (n i0 : Nat) (names : List String) (pos : List Nat) (i : Nat) (nm : String),
      (nm ∈ names ∨ ∃ j, i0 ≤ j ∧ j < i ∧ f j = some nm) →
      f i = some nm → i ∉ pos →
      i ∉ (planFrom f true i0 n names pos).2 := by
  intro n
  induction n with
  | zero =>
    intro i0 names pos i nm _ _ hpos
    rw [planFrom_zero]
    exact hpos
  | succ m ih =>
    intro i0 names pos i nm hdup hfi hpos
    by_cases hi : i0 = i
    · subst hi
      have hmem : nm ∈ names := by
        rcases hdup with h | ⟨j, hj1, hj2, _⟩
        · exact h
        · omega
      rw [planFrom_succ_skip f true i0 m names pos nm hfi ⟨rfl, hmem⟩]
      exact ih _ _ _ _ _ (Or.inl hmem) hfi hpos
    · cases hf : f i0 with
      | none =>
        rw [planFrom_succ_none f true i0 m names pos hf]
        refine ih _ _ _ _ _ ?_ hfi hpos
        rcases hdup with h | ⟨j, hj1, hj2, hj3⟩
        · exact Or.inl h
        · have hne : j ≠ i0 := by
            intro h'
            rw [h', hf] at hj3
            exact Option.noConfusion hj3
          exact Or.inr ⟨j, by omega, hj2, hj3⟩
      | some nm' =>
        by_cases hc : (true : Bool) = true ∧ nm' ∈ names
        · rw [planFrom_succ_skip f true i0 m names pos nm' hf hc]
          refine ih _ _ _ _ _ ?_ hfi hpos
          rcases hdup with h | ⟨j, hj1, hj2, hj3⟩
          · exact Or.inl h
          · by_cases hji : j = i0
            · rw [hji, hf] at hj3
              have heq : nm' = nm := by injection hj3
              exact Or.inl (heq ▸ hc.2)
            · exact Or.inr ⟨j, by omega, hj2, hj3⟩
        · rw [planFrom_succ_keep f true i0 m names pos nm' hf hc]
          refine ih _ _ _ _ _ ?_ hfi ?_
          · rcases hdup with h | ⟨j, hj1, hj2, hj3⟩
            · exact Or.inl (List.mem_append.mpr (Or.inl h))
            · by_cases hji : j = i0
              · rw [hji, hf] at hj3
                have heq : nm' = nm := by injection hj3
                exact Or.inl (List.mem_append.mpr (Or.inr (by simp [heq])))
              · exact Or.inr ⟨j, by omega, hj2, hj3⟩
          · intro hmem
            rcases List.mem_append.mp hmem with h' | h'
            · exact hpos h'
            · have heq : i = i0 := by simpa using h'
              exact hi heq.symm

theorem column_id_none_wg (sep kw wg : String) (num : Int) (lE : Bool)
    (lgr : String) (nxE : Bool) (nx : Int) (nyE : Bool) (ny : Int)
    (nzE : Bool) (nz : Int)
    (hact : ecl3_params_identifies wgnames_tag kw.data ≠ 0)
    (hvoid : is_void_str wg = true) :
    column_id sep kw wg num lE lgr nxE nx nyE ny nzE nz = none := by
  have : (ecl3_params_identifies wgnames_tag kw.data != 0) = true := by
    simpa using hact
  simp [column_id, addQualStr, this, hvoid]

theorem column_id_none_nums (sep kw wg : String) (num : Int) (lE : Bool)
    (lgr : String) (nxE : Bool) (nx : Int) (nyE : Bool) (ny : Int)
    (nzE : Bool) (nz : Int)
    (hact : ecl3_params_identifies nums_tag kw.data ≠ 0)
    (hvoid : is_void_int num = true) :
    column_id sep kw wg num lE lgr nxE nx nyE ny nzE nz = none := by
  have hb : (ecl3_params_identifies nums_tag kw.data != 0) = true := by
    simpa using hact
  unfold column_id
  cases h1 : addQualStr kw sep (ecl3_params_identifies wgnames_tag kw.data != 0) wg with
  | none => simp
  | some s1 => simp [addQualInt, hb, hvoid]

/-! ## Claims -/

/-- C1: the claim states that `readall` increments `report_step` at every
`SEQHDR` after the first, so the second report step's rows carry
`report_step = 2`. The source (src/unnamed/part_003) initializes
`report_step = 1` and never modifies it: on a file with two `SEQHDR`s and one
`MINISTEP`/`PARAMS` pair in each report step, both emitted rows carry
`report_step = 1` (the rows do appear in the on-disk order of their `MINISTEP`
arrays, as this evaluation also shows). -/
theorem c1_readall_report_step_constant :
    readall c1_arrays [0] =
      .ok [ { report_step := 1, mini := [0, 0, 0, 0], vals := [[10, 20, 30, 40]] },
            { report_step := 1, mini := [1, 0, 0, 0], vals := [[11, 21, 31, 41]] } ] := by
  rfl

/-- C7: spot-check values of the classifier
(`ecl3_params_identifies`, lib/src/summary.cpp). -/
theorem c7_classifier_spot_checks :
    ecl3_params_identifies wgnames_tag "WOPR    ".data = 1 ∧
    ecl3_params_identifies nums_tag "WOPR    ".data = 0 ∧
    ecl3_params_identifies wgnames_tag "COFR    ".data = 2 ∧
    ecl3_params_identifies nums_tag "COFR    ".data = 2 ∧
    ecl3_params_identifies wgnames_tag "NEWTON  ".data = 0 ∧
    ecl3_params_identifies nums_tag "BPR     ".data = 1 := by
  decide

/-- C2 counterexample: for the keyword `LCOPR   ` (an `LC*` local-completion
vector) five of the six specifier tags identify it positively — `LGRS`,
`WGNAMES`, `NUMLX`, `NUMLY`, `NUMLZ` — but each positive call returns 4
(lib/src/summary.cpp, the `LC` case), so the count of positively-identifying
tags (5) differs from the common returned value (4), refuting the claim as
stated and in particular its `LC` instance. -/
theorem c2_lc_counterexample :
    0 < ecl3_params_identifies lgrs_tag "LCOPR   ".data ∧
    specifier_tags.countP
      (fun t => decide (0 < ecl3_params_identifies t "LCOPR   ".data)) = 5 ∧
    ecl3_params_identifies lgrs_tag "LCOPR   ".data = 4 := by
  decide

/-- C5 counterexample: a stream holding only two stray bytes is a short read
that is not a clean end-of-stream exactly at the start of a header record, yet
`next` succeeds with the EOF sentinel (`count = -1`) instead of failing: the
`catch` in `read_head` only consults `eof()`, which a truncated read followed by
end-of-file also sets. -/
theorem c5_short_head_counterexample :
    (0 : Nat) < ([0, 0] : List Nat).length ∧ ([0, 0] : List Nat).length < 4 ∧
    reader_next { stream := [0, 0] } =
      .ok ({ count := -1 }, { stream := [0, 0], last := { count := -1 } }) := by
  exact ⟨by decide, by decide, rfl⟩

/-- C6 counterexample: a well-framed `INTE` array with declared count 1 whose
single body record carries 8 payload bytes is read successfully, but the
resulting body holds 8 bytes, not `count * element_size(INTE) = 4`: `read_body`
grows the body by the record's byte length (`elems`) while `ecl3_array_body`
only decodes `min(remaining, blocksize)` elements. -/
theorem c6_body_length_counterexample :
    reader_next { stream := c6_stream } =
      .ok (c6_array, { stream := [], last := c6_array }) ∧
    c6_array.body.length ≠ c6_array.count.toNat * ecl3_type_size ECL3_INTE := by
  exact ⟨rfl, by decide⟩

/-- C8 counterexample: with `KEYWORDS = [WOPR, WOPR]` and `WGNAMES = [W1, W1]`
both columns have non-sentinel qualifiers, yet the second is dropped by the
duplicate-name check of `columns` (src/unnamed/part_003), so it is not kept
with its source index as the claim states. -/
theorem c8_duplicate_dropped_counterexample :
    is_void_str "W1" = false ∧
    ecl3_params_identifies wgnames_tag "WOPR".data ≠ 0 ∧
    ecl3_params_identifies nums_tag "WOPR".data = 0 ∧
    columns ":" ["WOPR", "WOPR"] ["W1", "W1"] [0, 0] [] [] [] [] =
      (["WOPR:W1"], [0]) ∧
    1 ∉ (columns ":" ["WOPR", "WOPR"] ["W1", "W1"] [0, 0] [] [] [] []).2 := by
  refine ⟨by decide, by decide, by decide, by decide, by decide⟩

/-- C9 counterexample: the `columns` of the older extension module
(src/unnamed/part_002, embedded as `columns_v2`) performs no deduplication:
two entries with the same qualified name `WOPR:W1` both stay in the plan, so
"the column plan keeps only the first occurrence" and "contains no repeated
qualified name" fail for that implementation (the spec itself records this
divergence as an open question and chooses keep-first). -/
theorem c9_no_dedup_counterexample :
    columns_v2 ":" ["WOPR", "WOPR"] ["W1", "W1"] [0, 0] [] [] [] [] =
      (["WOPR:W1", "WOPR:W1"], [0, 1]) ∧
    ¬ (columns_v2 ":" ["WOPR", "WOPR"] ["W1", "W1"] [0, 0] [] [] [] []).1.Nodup := by
  refine ⟨by decide, by decide⟩


theorem reader_next_ok_state (r0 : Reader) (a : RawArray) (r : Reader)
    (h : reader_next r0 = .ok (a, r)) : r.ungetted = false ∧ r.last = a := by
  unfold reader_next at h
  by_cases hu : r0.ungetted
  · rw [if_pos hu] at h
    simp only [Except.ok.injEq, Prod.mk.injEq] at h
    obtain ⟨ha, hr⟩ := h
    subst hr
    exact ⟨rfl, ha⟩
  · rw [if_neg hu] at h
    split at h
    · exact Except.noConfusion h
    · rename_i a1 s1
      split at h
      · simp only [Except.ok.injEq, Prod.mk.injEq] at h
        obtain ⟨ha, hr⟩ := h
        subst hr
        exact ⟨by simpa using hu, ha⟩
      · split at h
        · exact Except.noConfusion h
        · rename_i a2 s2
          simp only [Except.ok.injEq, Prod.mk.injEq] at h
          obtain ⟨ha, hr⟩ := h
          subst hr
          exact ⟨by simpa using hu, ha⟩

/-- C4: one-slot pushback of `stream_reader::unget`/`next` (io.hpp). After
`next` has returned array `a` leaving the reader in state `r`, `unget`
followed by `next` yields `a` again and restores the state to exactly `r` —
in particular the underlying stream is not advanced, and the following `next`
call is literally `next r`, which advances to the next on-disk array. Only
one slot exists: a second `unget` without an intervening `next` changes
nothing (`unget` is idempotent on states). -/
theorem c4_unget_pushback (r0 r : Reader) (a : RawArray)
    (h : reader_next r0 = .ok (a, r)) :
    reader_next (reader_unget r) = .ok (a, r) ∧
    reader_unget (reader_unget r) = reader_unget r := by
  obtain ⟨hu, hl⟩ := reader_next_ok_state r0 a r h
  have hr : ({ r with ungetted := false } : Reader) = r := by
    cases r
    simp_all
  constructor
  · have h1 : reader_next (reader_unget r) =
        .ok (r.last, { r with ungetted := false }) := rfl
    rw [h1, hr, hl]
  · rfl

/-- C4 witness: on a concrete one-array stream, `next` returns the parsed
array; `unget` then `next` returns it again with the state restored, and
`unget ∘ unget = unget` there. -/
theorem c4_unget_pushback_witness :
    reader_next (reader_unget { stream := [], last := c4_array }) =
      .ok (c4_array, { stream := [], last := c4_array }) ∧
    reader_unget (reader_unget { stream := [], last := c4_array }) =
      reader_unget { stream := [], last := c4_array } :=
  c4_unget_pushback { stream := c4_stream } { stream := [], last := c4_array }
    c4_array rfl


theorem read_body_ok_typeid (last : RawArray) (s : List Nat) (a2 : RawArray)
    (s2 : List Nat) (h : read_body last s = .ok (a2, s2)) :
    (ecl3_typeid a2.type).isSome := by
  unfold read_body at h
  split at h
  · exact Except.noConfusion h
  · rename_i ty hty
    have htype : a2.type = last.type := by
      split at h
      · split at h
        · exact Except.noConfusion h
        · simp only [Except.ok.injEq, Prod.mk.injEq] at h
          rw [← h.1]
      · split at h
        · simp only [Except.ok.injEq, Prod.mk.injEq] at h
          rw [← h.1]
        · exact Except.noConfusion h
    rw [htype, hty]
    rfl

/-- C3: an array whose header carries a type tag outside the enumerated set is
rejected by `next`. Part 1: if the stream's next header record is well framed,
its count field is not the EOF sentinel `-1`, and its type tag fails
`ecl3_typeid`, then `next` fails with the unknown-type error (thrown while
decoding the array, before any body record is consumed — in particular also
for `count = 0` and for any other count). Part 2: `next` never successfully
produces a non-sentinel array carrying an invalid type tag. -/
theorem c3_invalid_type_rejected (r : Reader) (hu : r.ungetted = false) :
    (∀ (hb hdr tb s1 s2 s3 : List Nat),
        readBytes 4 r.stream = some (hb, s1) →
        readBytes 16 s1 = some (hdr, s2) →
        readBytes 4 s2 = some (tb, s3) →
        hb = tb →
        ecl3_typeid ((List.range 4).map (fun i => hdr.getD (12 + i) 0)) = none →
        host_i32 ((List.range 4).map (fun i => hdr.getD (8 + i) 0)) ≠ -1 →
        reader_next r =
          .error (.unknownType
            ((List.range 4).map (fun i => hdr.getD (12 + i) 0)))) ∧
    (∀ (a : RawArray) (r' : Reader),
        reader_next r = .ok (a, r') → a.emptyArr = false →
        (ecl3_typeid a.type).isSome) := by
  constructor
  · intro hb hdr tb s1 s2 s3 h1 h2 h3 heq hbad hcnt
    subst heq
    unfold reader_next read_head
    simp only [hu, Bool.false_eq_true, if_false, h1, h2, h3, check_headtail,
      ecl3_array_header, eq_self_iff_true, if_true, RawArray.emptyArr]
    rw [if_neg (by simpa using hcnt)]
    unfold read_body
    simp only [hbad]
  · intro a r' h hemp
    unfold reader_next at h
    rw [if_neg (by simp [hu])] at h
    split at h
    · exact Except.noConfusion h
    · split at h
      · rename_i hemp1
        simp only [Except.ok.injEq, Prod.mk.injEq] at h
        rw [h.1] at hemp1
        rw [hemp1] at hemp
        exact Bool.noConfusion hemp
      · split at h
        · exact Except.noConfusion h
        · rename_i a2 s2 hbody
          simp only [Except.ok.injEq, Prod.mk.injEq] at h
          rw [← h.1]
          exact read_body_ok_typeid _ _ _ _ hbody

/-- C3 witness: a concrete well-framed header with type tag `QQQQ` and count 0
makes `next` fail with the unknown-type error. -/
theorem c3_invalid_type_rejected_witness :
    reader_next { stream := c3_stream } =
      .error (.unknownType ((List.range 4).map
        (fun i => (mkheader "KEY     " 0 "QQQQ").getD (12 + i) 0))) :=
  (c3_invalid_type_rejected { stream := c3_stream } rfl).1
    (enc32 16) (mkheader "KEY     " 0 "QQQQ") (enc32 16)
    (mkheader "KEY     " 0 "QQQQ" ++ enc32 16) (enc32 16) []
    (by decide) (by decide) (by decide) rfl (by decide) (by decide)

/-- C5 (amended): record framing in the reader (io.hpp). (1) A framed header
record whose head and tail markers differ makes `next` fail with
`head_tail_error` carrying both decoded integers. (2) A failure to read the
4-byte head of a header record with the stream at end-of-file — zero bytes
left, or 1-3 stray bytes — yields the EOF sentinel (`count = -1`), not an
error. (3) Short reads of the header payload or its tail marker are errors.
(4) A body record whose head marker decodes to a non-negative `int32` and
whose head and tail markers differ makes the body loop fail with
`head_tail_error` carrying both decoded integers. (5) A body record whose head
marker decodes to a negative `int32` fails with the `std::length_error` of
`buffer.resize` immediately after the marker is read — before any payload or
tail byte, so no head/tail comparison takes place for it. -/
theorem c5_framing_checks (r : Reader) (hu : r.ungetted = false) :
    (∀ (hb hdr tb s1 s2 s3 : List Nat),
        readBytes 4 r.stream = some (hb, s1) →
        readBytes 16 s1 = some (hdr, s2) →
        readBytes 4 s2 = some (tb, s3) →
        hb ≠ tb →
        reader_next r = .error (.headTail (host_i32 hb) (host_i32 tb))) ∧
    (r.stream.length < 4 →
        reader_next r =
          .ok ({ r.last with count := -1 },
               { r with last := { r.last with count := -1 } })) ∧
    (∀ (hb s1 : List Nat),
        readBytes 4 r.stream = some (hb, s1) →
        (readBytes 16 s1 = none ∨
          ∃ hdr s2, readBytes 16 s1 = some (hdr, s2) ∧ readBytes 4 s2 = none) →
        reader_next r = .error .eofShort) ∧
    (∀ (ty : Int) (bsize fuel rr : Nat) (s body hb buf tb s1 s2 s3 : List Nat),
        readBytes 4 s = some (hb, s1) →
        0 ≤ toInt32 (be32 hb) →
        readBytes (toInt32 (be32 hb)).toNat s1 = some (buf, s2) →
        readBytes 4 s2 = some (tb, s3) →
        hb ≠ tb →
        read_blocks ty bsize (fuel + 1) (rr + 1) s body =
          .error (.headTail (host_i32 hb) (host_i32 tb))) ∧
    (∀ (ty : Int) (bsize fuel rr : Nat) (s body hb s1 : List Nat),
        readBytes 4 s = some (hb, s1) →
        toInt32 (be32 hb) < 0 →
        read_blocks ty bsize (fuel + 1) (rr + 1) s body = .error .lengthErr) := by
  refine ⟨?_, ?_, ?_, ?_, ?_⟩
  · intro hb hdr tb s1 s2 s3 h1 h2 h3 hne
    unfold reader_next read_head
    simp only [hu, Bool.false_eq_true, if_false, h1, h2, h3, check_headtail]
    rw [if_neg hne]
  · intro hshort
    have hrB : readBytes 4 r.stream = none := by
      unfold readBytes
      rw [if_neg (by omega)]
    unfold reader_next read_head
    simp only [hu, Bool.false_eq_true, if_false, hrB, RawArray.emptyArr]
    rfl
  · intro hb s1 h1 hrest
    unfold reader_next read_head
    simp only [hu, Bool.false_eq_true, if_false, h1]
    rcases hrest with h2 | ⟨hdr, s2, h2, h3⟩
    · simp only [h2]
    · simp only [h2, h3]
  · intro ty bsize fuel rr s body hb buf tb s1 s2 s3 h1 hnn h2 h3 hne
    unfold read_blocks
    simp only [h1]
    rw [if_neg (by omega)]
    simp only [h2, h3, check_headtail]
    rw [if_neg hne]
  · intro ty bsize fuel rr s body hb s1 h1 hneg
    unfold read_blocks
    simp only [h1]
    rw [if_pos hneg]

/-- C5 witness: the five parts instantiated on concrete streams: a mismatched
header record (16 vs 17), a clean EOF on an empty stream, a short header
payload, a mismatched body record (4 vs 5), and a body record whose marker
decodes to the negative `int32` -2147483648. -/
theorem c5_framing_checks_witness :
    reader_next { stream := enc32 16 ++ (mkheader "KEY     " 0 "INTE" ++ enc32 17) } =
      .error (.headTail (host_i32 (enc32 16)) (host_i32 (enc32 17))) ∧
    reader_next ({ stream := [] } : Reader) =
      .ok ({ count := -1 }, { stream := [], last := { count := -1 } }) ∧
    reader_next ({ stream := enc32 16 ++ [1, 2, 3] } : Reader) = .error .eofShort ∧
    read_blocks ECL3_INTE 1000 1 1 (enc32 4 ++ ([9, 9, 9, 9] ++ enc32 5)) [] =
      .error (.headTail (host_i32 (enc32 4)) (host_i32 (enc32 5))) ∧
    read_blocks ECL3_INTE 1000 1 1 (enc32 2147483648) [] = .error .lengthErr := by
  refine ⟨?_, ?_, ?_, ?_, ?_⟩
  · exact (c5_framing_checks
      { stream := enc32 16 ++ (mkheader "KEY     " 0 "INTE" ++ enc32 17) } rfl).1
      (enc32 16) (mkheader "KEY     " 0 "INTE")
      (enc32 17) (mkheader "KEY     " 0 "INTE" ++ enc32 17) (enc32 17) []
      (by decide) (by decide) (by decide) (by decide)
  · exact (c5_framing_checks { stream := [] } rfl).2.1 (by decide)
  · exact (c5_framing_checks { stream := enc32 16 ++ [1, 2, 3] } rfl).2.2.1
      (enc32 16) [1, 2, 3] (by decide)
      (Or.inl (by decide))
  · exact (c5_framing_checks { stream := [] } rfl).2.2.2.1 ECL3_INTE 1000 0 0
      (enc32 4 ++ ([9, 9, 9, 9] ++ enc32 5)) [] (enc32 4) [9, 9, 9, 9] (enc32 5)
      ([9, 9, 9, 9] ++ enc32 5) (enc32 5) [] (by decide) (by decide) (by decide)
      (by decide) (by decide)
  · exact (c5_framing_checks { stream := [] } rfl).2.2.2.2 ECL3_INTE 1000 0 0
      (enc32 2147483648) [] (enc32 2147483648) [] (by decide) (by decide)

theorem ecl3_typeid_mem (tag : List Nat) (ty : Int)
    (h : ecl3_typeid tag = some ty) : ty ∈ ecl3_typeid_codes := by
  simp only [ecl3_typeid] at h
  split at h
  · rename_i hmem
    injection h with h'
    rw [← h']
    exact hmem
  · exact Option.noConfusion h

/-- C6 (amended): the body-length invariant
`len(body) = count * element_size(type)` holds for every array whose body
records conform to the blocking schedule (each record carries exactly
`element_size * min(remaining, block_length)` payload bytes); a zero-element
array consumes no body records and decodes to an empty body. (The unamended
universal claim fails: `read_body` grows the body by each record's byte
length, so a non-conforming record breaks the equality — see the
counterexample.) -/
theorem c6_body_length_invariant (last : RawArray) (ty : Int)
    (hty : ecl3_typeid last.type = some ty) (hX : ty ≠ ECL3_X231)
    (hbound : ecl3_type_size ty * ecl3_block_size ty < 2147483648) :
    (∀ (segs : List (List Nat)) (rest : List Nat),
        0 < last.count →
        ConformingSegs (ecl3_type_size ty) (ecl3_block_size ty)
          last.count.toNat segs →
        ∃ body, read_body last ((segs.map framed).flatten ++ rest) =
            .ok ({ last with body := body }, rest) ∧
          body.length = last.count.toNat * ecl3_type_size ty) ∧
    (last.count = 0 →
      ∀ s, read_body last s = .ok ({ last with body := [] }, s)) := by
  have hok : ecl3_get_native_err ty = ECL3_OK := by
    unfold ecl3_get_native_err
    rw [if_neg hX, if_pos (ecl3_typeid_mem last.type ty hty)]
  constructor
  · intro segs rest hcount hconf
    obtain ⟨extra, heq, hlen⟩ := read_blocks_conforming ty (ecl3_type_size ty)
      (ecl3_block_size ty) rfl hok (ecl3_block_size_pos ty) hbound
      last.count.toNat segs hconf last.count.toNat (le_refl _) rest []
    refine ⟨extra, ?_, by rw [hlen, Nat.mul_comm]⟩
    unfold read_body
    simp only [hty]
    rw [if_pos hcount]
    simp only [heq, List.nil_append]
  · intro h0 s
    unfold read_body
    simp only [hty, h0]
    rfl

/-- C6 witness: an `INTE` array with `count = 2` and one conforming 8-byte
body record decodes with `len(body) = 2 * 4`. -/
theorem c6_body_length_invariant_witness :
    0 < c6w_array.count ∧
    (∃ body, read_body c6w_array (framed [1, 2, 3, 4, 5, 6, 7, 8] ++ [9]) =
        .ok ({ c6w_array with body := body }, [9]) ∧
      body.length = c6w_array.count.toNat * ecl3_type_size ECL3_INTE) := by
  constructor
  · decide
  · have h := (c6_body_length_invariant c6w_array ECL3_INTE (by decide)
      (by decide) (by decide)).1 [[1, 2, 3, 4, 5, 6, 7, 8]] [9] (by decide)
      (ConformingSegs.cons 1 [1, 2, 3, 4, 5, 6, 7, 8] [] (by decide)
        ConformingSegs.nil)
    simpa using h

/-- C10: `ecl3_array_header` (src/unnamed/part_001) is total and infallible:
on every 16-byte input it returns `ECL3_OK`, the first 8 bytes verbatim as the
name, bytes [8..12) decoded as a big-endian 32-bit integer as the count, and
bytes [12..16) verbatim as the type, validating nothing; consequently the
`header_error` branch of `stream_reader::read_head` is unreachable for every
stream and every reader state. -/
theorem c10_array_header_total (src : List Nat) (h : src.length = 16) :
    ecl3_array_header src =
      (ECL3_OK, src.take 8, host_i32 ((src.drop 8).take 4),
        (src.drop 12).take 4) ∧
    ∀ (s : List Nat) (last : RawArray), read_head s last ≠ .error .headerErr := by
  constructor
  · have key : ∀ (m k : Nat), m + k ≤ src.length →
        (List.range k).map (fun i => src.getD (m + i) 0) = (src.drop m).take k := by
      intro m k hmk
      apply List.ext_getElem
      · simp
        omega
      · intro i h1 h2
        simp only [List.length_map, List.length_range] at h1
        simp only [List.getElem_map, List.getElem_range, List.getElem_take,
          List.getElem_drop]
        rw [List.getD_eq_getElem src 0 (by omega)]
    have k1 := key 0 8 (by omega)
    have k2 := key 8 4 (by omega)
    have k3 := key 12 4 (by omega)
    simp only [Nat.zero_add, List.drop_zero] at k1
    unfold ecl3_array_header
    rw [k1, k2, k3]
  · intro s last hcontra
    unfold read_head at hcontra
    split at hcontra
    · exact Except.noConfusion hcontra
    · split at hcontra
      · simp at hcontra
      · split at hcontra
        · simp at hcontra
        · split at hcontra
          · rename_i e heq
            unfold check_headtail at heq
            split at heq
            · exact Except.noConfusion heq
            · injection heq with h'
              rw [← h'] at hcontra
              simp at hcontra
          · simp only [ecl3_array_header] at hcontra
            split at hcontra
            · exact Except.noConfusion hcontra
            · simp_all

/-- C10 witness: the decomposition at a concrete 16-byte header payload
(name `WGNAMES `, count 3, type `CHAR`), plus one instance of the
unreachability of the `header_error` branch. -/
theorem c10_array_header_total_witness :
    ecl3_array_header c10_header =
      (ECL3_OK, c10_header.take 8, host_i32 ((c10_header.drop 8).take 4),
        (c10_header.drop 12).take 4) ∧
    read_head [1, 2] {} ≠ .error .headerErr := by
  have h := c10_array_header_total c10_header (by decide)
  exact ⟨h.1, h.2 [1, 2] {}⟩

/-- C8 (amended): void-column filtering in `columns` (src/unnamed/part_003).
A column whose keyword requires the `WGNAMES` qualifier and whose `WGNAMES`
entry is a sentinel (`:+:+:+:+` or 8 spaces) is omitted from the plan, and
likewise for a required `NUMS` entry that is negative. A column whose
qualifiers pass every void check (its per-index qualified name is `some nm`)
is kept with its original source index — provided no earlier column produced
the same qualified name (the duplicate check the unamended claim omits). -/
theorem c8_void_columns_filtered (sep : String) (keywords wgnames : List String)
    (nums : List Int) (lgrs : List String) (numlx numly numlz : List Int)
    (i : Nat) :
    (ecl3_params_identifies wgnames_tag (keywords.getD i "").data ≠ 0 →
      is_void_str (wgnames.getD i "") = true →
      i ∉ (columns sep keywords wgnames nums lgrs numlx numly numlz).2) ∧
    (ecl3_params_identifies nums_tag (keywords.getD i "").data ≠ 0 →
      is_void_int (nums.getD i 0) = true →
      i ∉ (columns sep keywords wgnames nums lgrs numlx numly numlz).2) ∧
    (∀ nm : String, i < keywords.length →
      column_id_at sep keywords wgnames nums lgrs numlx numly numlz i = some nm →
      (∀ j, j < i →
        column_id_at sep keywords wgnames nums lgrs numlx numly numlz j ≠ some nm) →
      (nm, i) ∈ (columns sep keywords wgnames nums lgrs numlx numly numlz).1.zip
        (columns sep keywords wgnames nums lgrs numlx numly numlz).2) := by
  refine ⟨?_, ?_, ?_⟩
  · intro hact hvoid
    have hnone : column_id_at sep keywords wgnames nums lgrs numlx numly numlz i
        = none := by
      unfold column_id_at
      exact column_id_none_wg _ _ _ _ _ _ _ _ _ _ _ _ hact hvoid
    unfold columns
    exact planFrom_none_not_mem _ true keywords.length 0 [] [] i hnone (by simp)
  · intro hact hvoid
    have hnone : column_id_at sep keywords wgnames nums lgrs numlx numly numlz i
        = none := by
      unfold column_id_at
      exact column_id_none_nums _ _ _ _ _ _ _ _ _ _ _ _ hact hvoid
    unfold columns
    exact planFrom_none_not_mem _ true keywords.length 0 [] [] i hnone (by simp)
  · intro nm hi hf hfirst
    unfold columns
    exact planFrom_keep_first _ true keywords.length 0 [] [] i nm rfl
      (Nat.zero_le i) (by omega) hf (fun j _ hj2 => hfirst j hj2) (by simp)

/-- C8 witness: the spec's void-filtering example — `KEYWORDS = [WWPR, WWPR,
WOPR]`, `WGNAMES = [W1, :+:+:+:+, W1]` — drops column 1 and keeps `WOPR:W1`
at source index 2. -/
theorem c8_void_columns_filtered_witness :
    (1 : Nat) ∉ (columns ":" ["WWPR", "WWPR", "WOPR"] ["W1", ":+:+:+:+", "W1"]
      [0, 0, 0] [] [] [] []).2 ∧
    ("WOPR:W1", 2) ∈
      (columns ":" ["WWPR", "WWPR", "WOPR"] ["W1", ":+:+:+:+", "W1"]
        [0, 0, 0] [] [] [] []).1.zip
      (columns ":" ["WWPR", "WWPR", "WOPR"] ["W1", ":+:+:+:+", "W1"]
        [0, 0, 0] [] [] [] []).2 := by
  constructor
  · exact (c8_void_columns_filtered ":" ["WWPR", "WWPR", "WOPR"]
      ["W1", ":+:+:+:+", "W1"] [0, 0, 0] [] [] [] [] 1).1 (by decide) (by decide)
  · refine (c8_void_columns_filtered ":" ["WWPR", "WWPR", "WOPR"]
      ["W1", ":+:+:+:+", "W1"] [0, 0, 0] [] [] [] [] 2).2.2 "WOPR:W1"
      (by decide) (by decide) ?_
    intro j hj
    interval_cases j <;> decide

/-- C9 (amended): the `columns` of the io.hpp-based module
(src/unnamed/part_003) deduplicates: the emitted name list contains no
repeated qualified name, and any column whose qualified name already appeared
at an earlier source index is dropped (the first occurrence is the one kept,
with its source index — see `c8_void_columns_filtered`). The older module
(src/unnamed/part_002) does not deduplicate — see the counterexample. -/
theorem c9_plan_dedup (sep : String) (keywords wgnames : List String)
    (nums : List Int) (lgrs : List String) (numlx numly numlz : List Int) :
    (columns sep keywords wgnames nums lgrs numlx numly numlz).1.Nodup ∧
    (∀ (i j : Nat) (nm : String), j < i →
      column_id_at sep keywords wgnames nums lgrs numlx numly numlz j = some nm →
      column_id_at sep keywords wgnames nums lgrs numlx numly numlz i = some nm →
      i ∉ (columns sep keywords wgnames nums lgrs numlx numly numlz).2) := by
  constructor
  · unfold columns
    exact planFrom_nodup _ keywords.length 0 [] [] List.nodup_nil
  · intro i j nm hji hfj hfi
    unfold columns
    exact planFrom_dup_dropped _ keywords.length 0 [] [] i nm
      (Or.inr ⟨j, Nat.zero_le j, hji, hfj⟩) hfi (by simp)

/-- C9 witness: with two identical `WOPR`/`W1` columns, the plan has no
repeated name and the later duplicate (index 1) is dropped. -/
theorem c9_plan_dedup_witness :
    (columns ":" ["WOPR", "WOPR"] ["W1", "W1"] [0, 0] [] [] [] []).1.Nodup ∧
    (1 : Nat) ∉ (columns ":" ["WOPR", "WOPR"] ["W1", "W1"]
      [0, 0] [] [] [] []).2 := by
  constructor
  · exact (c9_plan_dedup ":" ["WOPR", "WOPR"] ["W1", "W1"] [0, 0] [] [] [] []).1
  · exact (c9_plan_dedup ":" ["WOPR", "WOPR"] ["W1", "W1"] [0, 0] [] [] [] []).2
      1 0 "WOPR:W1" (by decide) (by decide) (by decide)

@[simp] theorem wgnames_tag_ne_nums : (wgnames_tag = nums_tag) = False := eq_false (by decide)

@[simp] theorem wgnames_tag_ne_lgrs : (wgnames_tag = lgrs_tag) = False := eq_false (by decide)

@[simp] theorem wgnames_tag_ne_numlx : (wgnames_tag = numlx_tag) = False := eq_false (by decide)

@[simp] theorem wgnames_tag_ne_numly : (wgnames_tag = numly_tag) = False := eq_false (by decide)

@[simp] theorem wgnames_tag_ne_numlz : (wgnames_tag = numlz_tag) = False := eq_false (by decide)

@[simp] theorem nums_tag_ne_wgnames : (nums_tag = wgnames_tag) = False := eq_false (by decide)

@[simp] theorem nums_tag_ne_lgrs : (nums_tag = lgrs_tag) = False := eq_false (by decide)

@[simp] theorem nums_tag_ne_numlx : (nums_tag = numlx_tag) = False := eq_false (by decide)

@[simp] theorem nums_tag_ne_numly : (nums_tag = numly_tag) = False := eq_false (by decide)

@[simp] theorem nums_tag_ne_numlz : (nums_tag = numlz_tag) = False := eq_false (by decide)

@[simp] theorem lgrs_tag_ne_wgnames : (lgrs_tag = wgnames_tag) = False := eq_false (by decide)

@[simp] theorem lgrs_tag_ne_nums : (lgrs_tag = nums_tag) = False := eq_false (by decide)

@[simp] theorem lgrs_tag_ne_numlx : (lgrs_tag = numlx_tag) = False := eq_false (by decide)

@[simp] theorem lgrs_tag_ne_numly : (lgrs_tag = numly_tag) = False := eq_false (by decide)

@[simp] theorem lgrs_tag_ne_numlz : (lgrs_tag = numlz_tag) = False := eq_false (by decide)

@[simp] theorem numlx_tag_ne_wgnames : (numlx_tag = wgnames_tag) = False := eq_false (by decide)

@[simp] theorem numlx_tag_ne_nums : (numlx_tag = nums_tag) = False := eq_false (by decide)

@[simp] theorem numlx_tag_ne_lgrs : (numlx_tag = lgrs_tag) = False := eq_false (by decide)

@[simp] theorem numlx_tag_ne_numly : (numlx_tag = numly_tag) = False := eq_false (by decide)

@[simp] theorem numlx_tag_ne_numlz : (numlx_tag = numlz_tag) = False := eq_false (by decide)

@[simp] theorem numly_tag_ne_wgnames : (numly_tag = wgnames_tag) = False := eq_false (by decide)

@[simp] theorem numly_tag_ne_nums : (numly_tag = nums_tag) = False := eq_false (by decide)

@[simp] theorem numly_tag_ne_lgrs : (numly_tag = lgrs_tag) = False := eq_false (by decide)

@[simp] theorem numly_tag_ne_numlx : (numly_tag = numlx_tag) = False := eq_false (by decide)

@[simp] theorem numly_tag_ne_numlz : (numly_tag = numlz_tag) = False := eq_false (by decide)

@[simp] theorem numlz_tag_ne_wgnames : (numlz_tag = wgnames_tag) = False := eq_false (by decide)

@[simp] theorem numlz_tag_ne_nums : (numlz_tag = nums_tag) = False := eq_false (by decide)

@[simp] theorem numlz_tag_ne_lgrs : (numlz_tag = lgrs_tag) = False := eq_false (by decide)

@[simp] theorem numlz_tag_ne_numlx : (numlz_tag = numlx_tag) = False := eq_false (by decide)

@[simp] theorem numlz_tag_ne_numly : (numlz_tag = numly_tag) = False := eq_false (by decide)

/-- C2 (amended): classifier consistency holds for every keyword that does not
begin with `LC`: whenever a specifier tag identifies the keyword positively,
the number of specifier tags with a positive result equals that (common)
value. (For `LC*` keywords the code returns 4 from each of five tags, so the
unamended universal claim — and its `LC` instance in particular — fails; see
the counterexample.) -/
theorem c2_classifier_consistency (id kw : List Char)
    (hmem : id ∈ specifier_tags)
    (hnotLC : ¬(kw.getD 0 ' ' = 'L' ∧ kw.getD 1 ' ' = 'C'))
    (hpos : 0 < ecl3_params_identifies id kw) :
    specifier_tags.countP
      (fun t => decide (0 < ecl3_params_identifies t kw)) =
      ecl3_params_identifies id kw := by
  have hmem' : id = wgnames_tag ∨ id = nums_tag ∨ id = lgrs_tag ∨
      id = numlx_tag ∨ id = numly_tag ∨ id = numlz_tag := by
    simpa [specifier_tags] using hmem
  by_cases h0A : kw.getD 0 ' ' = 'A'
  · rcases hmem' with rfl | rfl | rfl | rfl | rfl | rfl <;>
      simp_all [ecl3_params_identifies, specifier_tags, List.countP_cons,
        List.countP_nil]
  by_cases h0B : kw.getD 0 ' ' = 'B'
  · rcases hmem' with rfl | rfl | rfl | rfl | rfl | rfl <;>
      simp_all [ecl3_params_identifies, specifier_tags, List.countP_cons,
        List.countP_nil]
  by_cases h0C : kw.getD 0 ' ' = 'C'
  · rcases hmem' with rfl | rfl | rfl | rfl | rfl | rfl <;>
      simp_all [ecl3_params_identifies, specifier_tags, List.countP_cons,
        List.countP_nil]
  by_cases h0G : kw.getD 0 ' ' = 'G'
  · by_cases h1M : kw.getD 1 ' ' = 'M'
    · rcases hmem' with rfl | rfl | rfl | rfl | rfl | rfl <;>
        simp_all [ecl3_params_identifies, specifier_tags, List.countP_cons,
          List.countP_nil]
    · rcases hmem' with rfl | rfl | rfl | rfl | rfl | rfl <;>
        simp_all [ecl3_params_identifies, specifier_tags, List.countP_cons,
          List.countP_nil]
  by_cases h0W : kw.getD 0 ' ' = 'W'
  · by_cases h1M : kw.getD 1 ' ' = 'M'
    · rcases hmem' with rfl | rfl | rfl | rfl | rfl | rfl <;>
        simp_all [ecl3_params_identifies, specifier_tags, List.countP_cons,
          List.countP_nil]
    · by_cases hWN : kw = "WNEWTON ".data
      · rcases hmem' with rfl | rfl | rfl | rfl | rfl | rfl <;>
          simp_all [ecl3_params_identifies, specifier_tags, List.countP_cons,
            List.countP_nil]
      · rcases hmem' with rfl | rfl | rfl | rfl | rfl | rfl <;>
          simp_all [ecl3_params_identifies, specifier_tags, List.countP_cons,
            List.countP_nil]
  by_cases h0P : kw.getD 0 ' ' = 'P'
  · rcases hmem' with rfl | rfl | rfl | rfl | rfl | rfl <;>
      simp_all [ecl3_params_identifies, specifier_tags, List.countP_cons,
        List.countP_nil]
  by_cases h0R : kw.getD 0 ' ' = 'R'
  · rcases hmem' with rfl | rfl | rfl | rfl | rfl | rfl <;>
      simp_all [ecl3_params_identifies, specifier_tags, List.countP_cons,
        List.countP_nil]
  by_cases h0L : kw.getD 0 ' ' = 'L'
  · by_cases h1B : kw.getD 1 ' ' = 'B'
    · rcases hmem' with rfl | rfl | rfl | rfl | rfl | rfl <;>
        simp_all [ecl3_params_identifies, specifier_tags, List.countP_cons,
          List.countP_nil]
    · by_cases h1C : kw.getD 1 ' ' = 'C'
      · exact absurd ⟨h0L, h1C⟩ hnotLC
      · by_cases h1W : kw.getD 1 ' ' = 'W'
        · rcases hmem' with rfl | rfl | rfl | rfl | rfl | rfl <;>
            simp_all [ecl3_params_identifies, specifier_tags, List.countP_cons,
              List.countP_nil]
        · rcases hmem' with rfl | rfl | rfl | rfl | rfl | rfl <;>
            simp_all [ecl3_params_identifies, specifier_tags, List.countP_cons,
              List.countP_nil]
  by_cases h0N : kw.getD 0 ' ' = 'N'
  · by_cases hN1 : kw = "NEWTON  ".data
    · rcases hmem' with rfl | rfl | rfl | rfl | rfl | rfl <;>
        simp_all [ecl3_params_identifies, specifier_tags, List.countP_cons,
          List.countP_nil]
    · by_cases hN2 : kw = "NAIMFRAC".data
      · rcases hmem' with rfl | rfl | rfl | rfl | rfl | rfl <;>
          simp_all [ecl3_params_identifies, specifier_tags, List.countP_cons,
            List.countP_nil]
      · by_cases hN3 : kw = "NLINEARS".data
        · rcases hmem' with rfl | rfl | rfl | rfl | rfl | rfl <;>
            simp_all [ecl3_params_identifies, specifier_tags, List.countP_cons,
              List.countP_nil]
        · by_cases hN4 : kw = "NLINSMIN".data
          · rcases hmem' with rfl | rfl | rfl | rfl | rfl | rfl <;>
              simp_all [ecl3_params_identifies, specifier_tags, List.countP_cons,
                List.countP_nil]
          · by_cases hN5 : kw = "NLINSMAX".data
            · rcases hmem' with rfl | rfl | rfl | rfl | rfl | rfl <;>
                simp_all [ecl3_params_identifies, specifier_tags,
                  List.countP_cons, List.countP_nil]
            · rcases hmem' with rfl | rfl | rfl | rfl | rfl | rfl <;>
                simp_all [ecl3_params_identifies, specifier_tags,
                  List.countP_cons, List.countP_nil]
  by_cases h0S : kw.getD 0 ' ' = 'S'
  · by_cases hS1 : kw = "STEPTYPE".data
    · rcases hmem' with rfl | rfl | rfl | rfl | rfl | rfl <;>
        simp_all [ecl3_params_identifies, specifier_tags, List.countP_cons,
          List.countP_nil]
    · by_cases hS2 : kw.take 4 = "SGAS".data
      · rcases hmem' with rfl | rfl | rfl | rfl | rfl | rfl <;>
          simp_all [ecl3_params_identifies, specifier_tags, List.countP_cons,
            List.countP_nil]
      · by_cases hS3 : kw.take 4 = "SOIL".data
        · rcases hmem' with rfl | rfl | rfl | rfl | rfl | rfl <;>
            simp_all [ecl3_params_identifies, specifier_tags, List.countP_cons,
              List.countP_nil]
        · by_cases hS4 : kw.take 4 = "SWAT".data
          · rcases hmem' with rfl | rfl | rfl | rfl | rfl | rfl <;>
              simp_all [ecl3_params_identifies, specifier_tags, List.countP_cons,
                List.countP_nil]
          · rcases hmem' with rfl | rfl | rfl | rfl | rfl | rfl <;>
              simp_all [ecl3_params_identifies, specifier_tags,
                List.countP_cons, List.countP_nil]
  · rcases hmem' with rfl | rfl | rfl | rfl | rfl | rfl <;>
      simp_all [ecl3_params_identifies, specifier_tags, List.countP_cons,
        List.countP_nil]

/-- C2 witness: for the completion keyword `COFR    `, `WGNAMES` identifies it
positively and the count of positive tags (2) equals the returned value. -/
theorem c2_classifier_consistency_witness :
    specifier_tags.countP
      (fun t => decide (0 < ecl3_params_identifies t "COFR    ".data)) =
      ecl3_params_identifies wgnames_tag "COFR    ".data :=
  c2_classifier_consistency wgnames_tag "COFR    ".data (by decide) (by decide)
    (by decide)
